import Mathlib

/-!
Verification of the Epochs conversion library.

The library converts integer and fractional epoch values of various formats
into civil (proleptic Gregorian) datetimes and back.  Its datetime type is
the external chrono NaiveDateTime; we model that collaborator extensionally:
a datetime is a day number relative to 1970-01-01 (the civil correspondence
is computed by the standard Hinnant civil-from-days / days-from-civil
algorithms, which agree with chrono on the proleptic Gregorian calendar),
a second-of-day count and a nanosecond field.  The chrono date range is
year -262144 to year 262143; constructors return none outside it.

Rust arithmetic conventions: integer division and remainder truncate toward
zero (Int.tdiv, Int.tmod); casts with the as operator wrap (modelled by
taking the value modulo a power of two); checked_add returns none when the
mathematical sum leaves the 64-bit signed range.
-/

namespace Epochs

/-- Gregorian leap year test, as chrono computes it (divisible by 4 and not
by 100 unless by 400). -/
def isLeap (y : Int) : Bool :=
  y % 4 == 0 && (y % 100 != 0 || y % 400 == 0)

/-- Length of a civil month in the proleptic Gregorian calendar, the
validity table chrono uses for dates. Months are numbered 1 to 12. -/
def daysInMonth (y : Int) (m : Nat) : Nat :=
  match m with
  | 1 => 31
  | 2 => if isLeap y then 29 else 28
  | 3 => 31
  | 4 => 30
  | 5 => 31
  | 6 => 30
  | 7 => 31
  | 8 => 31
  | 9 => 30
  | 10 => 31
  | 11 => 30
  | 12 => 31
  | _ => 0

/-- Core of the civil-from-days computation (Hinnant), given the 400-year
era and the day-of-era. Returns (year, month, day). -/
def cfdCore (era : Int) (doe : Nat) : Int × Nat × Nat :=
  let yoe := (doe - doe / 1460 + doe / 36524 - doe / 146096) / 365
  let y : Int := (yoe : Int) + era * 400
  let doy := doe - (365 * yoe + yoe / 4 - yoe / 100)
  let mp := (5 * doy + 2) / 153
  let d := doy - (153 * mp + 2) / 5 + 1
  let m := if mp < 10 then mp + 3 else mp - 9
  (if m ≤ 2 then y + 1 else y, m, d)

/-- Civil date (year, month, day) of a day number counted from 1970-01-01,
the proleptic Gregorian correspondence used by chrono. -/
def civilFromDays (z : Int) : Int × Nat × Nat :=
  let zz := z + 719468
  let era := zz / 146097
  cfdCore era (zz - era * 146097).toNat

/-- Day number (from 1970-01-01) of a civil date, inverse correspondence. -/
def daysFromCivil (y : Int) (m d : Nat) : Int :=
  let y2 := if m ≤ 2 then y - 1 else y
  let era := y2 / 400
  let yoe := (y2 - era * 400).toNat
  let doy := (153 * (if 2 < m then m - 3 else m + 9) + 2) / 5 + d - 1
  let doe := yoe * 365 + yoe / 4 - yoe / 100 + doy
  era * 146097 + (doe : Int) - 719468

/-- Smallest day number chrono can represent (civil -262144-01-01). -/
def minDateDays : Int := daysFromCivil (-262144) 1 1

/-- Largest day number chrono can represent (civil 262143-12-31). -/
def maxDateDays : Int := daysFromCivil 262143 12 31

/-- Day-number range of representable chrono dates. -/
def inDateRange (dn : Int) : Prop := minDateDays ≤ dn ∧ dn ≤ maxDateDays

instance (dn : Int) : Decidable (inDateRange dn) := by
  unfold inDateRange; infer_instance

/-- Model of chrono NaiveDateTime: day number from 1970-01-01, second of
day (0 to 86399), and the nanosecond field (chrono admits values up to
2_000_000_000, the extension encoding leap seconds). -/
structure NaiveDateTime where
  dn : Int
  sod : Nat
  nano : Nat
deriving DecidableEq

/-- Datetime built from civil components. -/
def civil (y : Int) (m d h mi s n : Nat) : NaiveDateTime :=
  ⟨daysFromCivil y m d, h * 3600 + mi * 60 + s, n⟩

/-- The year accessor of chrono. -/
def year (t : NaiveDateTime) : Int := (civilFromDays t.dn).1

/-- The month accessor of chrono. -/
def month (t : NaiveDateTime) : Nat := (civilFromDays t.dn).2.1

/-- The day accessor of chrono. -/
def day (t : NaiveDateTime) : Nat := (civilFromDays t.dn).2.2

/-- The hour accessor of chrono. -/
def hour (t : NaiveDateTime) : Nat := t.sod / 3600

/-- The minute accessor of chrono. -/
def minute (t : NaiveDateTime) : Nat := t.sod % 3600 / 60

/-- The second accessor of chrono. -/
def second (t : NaiveDateTime) : Nat := t.sod % 60

/-- chrono NaiveDate::from_ymd_opt followed by and_hms(0,0,0), as a day
number: succeeds when the civil triple is a valid representable date. -/
def from_ymd_opt (y : Int) (m d : Nat) : Option Int :=
  if (1 ≤ m ∧ m ≤ 12) ∧ (1 ≤ d ∧ d ≤ daysInMonth y m) ∧
      (-262144 ≤ y ∧ y ≤ 262143) then
    some (daysFromCivil y m d)
  else none

/-- chrono NaiveDateTime::from_timestamp_opt: splits the seconds with floor
division, requires the nanosecond field below two billion and the date in
the representable range. -/
def fromTimestampOpt (secs : Int) (nsecs : Nat) : Option NaiveDateTime :=
  if nsecs < 2000000000 ∧ inDateRange (secs / 86400) then
    some ⟨secs / 86400, (secs % 86400).toNat, nsecs⟩
  else none

/-- chrono NaiveDateTime::with_year: same month, day and time of day in the
new year; none when the date would be invalid or out of range. -/
def with_year (t : NaiveDateTime) (y : Int) : Option NaiveDateTime :=
  let m := month t
  let d := day t
  if (1 ≤ d ∧ d ≤ daysInMonth y m) ∧ (-262144 ≤ y ∧ y ≤ 262143) then
    some ⟨daysFromCivil y m d, t.sod, t.nano⟩
  else none

/-- Adding Duration::days with the chrono + operator. The operator aborts
out of range; every use in this development stays in range, so the model
is total day-number addition. -/
def addDays (t : NaiveDateTime) (k : Int) : NaiveDateTime :=
  ⟨t.dn + k, t.sod, t.nano⟩

/-- Adding Duration::seconds with the chrono + operator, renormalising the
day number and second of day with floor division. -/
def addSeconds (t : NaiveDateTime) (k : Int) : NaiveDateTime :=
  let ts := t.dn * 86400 + (t.sod : Int) + k
  ⟨ts / 86400, (ts % 86400).toNat, t.nano⟩

/-- Rust i64::checked_add: none when the exact sum leaves the i64 range. -/
def checked_add_i64 (a b : Int) : Option Int :=
  if -9223372036854775808 ≤ a + b ∧ a + b ≤ 9223372036854775807 then
    some (a + b)
  else none

/-- The i64 range predicate used by checked_add_i64. -/
def inI64 (a : Int) : Prop :=
  -9223372036854775808 ≤ a ∧ a ≤ 9223372036854775807

instance (a : Int) : Decidable (inI64 a) := by
  unfold inI64; infer_instance

/-- The Rust cast as u32 applied to an i64 value: the low 32 bits. -/
def u32cast (v : Int) : Nat := (v % 4294967296).toNat

/-- The Rust cast as i32 applied to a wider integer: wraps into the signed
32-bit range. -/
def wrap32 (v : Int) : Int := (v + 2147483648) % 4294967296 - 2147483648

/-- epoch2time from src/lib.rs: quotient and remainder of the tick count by
the divisor d (Rust truncating division), remainder scaled to nanoseconds
and cast as u32, shift s added with checked_add, then
NaiveDateTime::from_timestamp_opt. -/
def epoch2time (x d s : Int) : Option NaiveDateTime :=
  let q := x.tdiv d
  let n := u32cast ((x.tmod d) * ((1000000000 : Int).tdiv d))
  (checked_add_i64 q s).bind fun t => fromTimestampOpt t n

/-- ndays_in_month from src/lib.rs: the first day of the following month,
preceded by one day, gives the last day of the month in question. -/
def ndays_in_month (year0 : Int) (month0 : Nat) : Option Int :=
  let ym := if month0 = 12 then (year0 + 1, 1) else (year0, month0 + 1)
  (from_ymd_opt ym.1 ym.2 1).map fun d => ((civilFromDays (d - 1)).2.2 : Int)

/-- plus_month from src/lib.rs: add as many days as the current month has. -/
def plus_month (t : NaiveDateTime) : Option NaiveDateTime :=
  (ndays_in_month (year t) (month t)).map fun days => addDays t days

/-- The for loop in plus_months: apply plus_month the given number of
times, propagating failure.  A Rust range 0..months with negative months
iterates zero times, hence the Nat count. -/
def monthLoop : Nat → NaiveDateTime → Option NaiveDateTime
  | 0, t => some t
  | Nat.succ k, t =>
    match plus_month t with
    | none => none
    | some t2 => monthLoop k t2

/-- plus_months from src/lib.rs: the year part months / 12 is cast as i32
(wrapping) and added to the year (i32 addition, wrapping in release
builds), then the remainder months % 12 is applied one month at a time. -/
def plus_months (t : NaiveDateTime) (months : Int) : Option NaiveDateTime :=
  let years := wrap32 (months.tdiv 12)
  let monthsRem := months.tmod 12
  match with_year t (wrap32 (year t + years)) with
  | none => none
  | some t0 => monthLoop monthsRem.toNat t0

/-- google_calendar from src/lib.rs: seconds split into 32-day synthetic
months, anchored one day before the Unix epoch. -/
def google_calendar (num : Int) : Option NaiveDateTime :=
  let seconds_per_day : Int := 24 * 60 * 60
  let total_days := num.tdiv seconds_per_day
  let seconds := num.tmod seconds_per_day
  let months := total_days.tdiv 32
  let days := total_days.tmod 32
  let ndt : NaiveDateTime := ⟨daysFromCivil 1969 12 31, 0, 0⟩
  let ndt := addDays ndt days
  (plus_months ndt months).map fun t => addSeconds t seconds

/-- to_google_calendar from src/lib.rs: direct mixed-radix encoding of the
civil components. -/
def to_google_calendar (t : NaiveDateTime) : Int :=
  (((((year t - 1970) * 12 + ((month t : Int) - 1)) * 32 + (day t : Int)) * 24
      + (hour t : Int)) * 60 + (minute t : Int)) * 60 + (second t : Int)

/-- MAX_DAYS from src/lib.rs: i64::MAX divided by the milliseconds in a
day, the largest day count whose millisecond duration fits an i64. -/
def MAX_DAYS : Int := (9223372036854775807 : Int).tdiv (24 * 60 * 60 * 1000)

/-- MILLIS_PER_DAY from src/lib.rs.  The source constant is an f64 whose
value 86400000 is exact; the f64 arithmetic of icq is modelled over the
rationals. -/
def MILLIS_PER_DAY : ℚ := 86400000

/-- The Rust cast as i64 applied to an f64 value: truncation toward zero
(of the modelled rational). -/
def ratTrunc (q : ℚ) : Int := q.num.tdiv (q.den : Int)

/-- chrono checked_add_signed with a whole-day duration: none when the
resulting date leaves the representable range. -/
def checkedAddDays (t : NaiveDateTime) (k : Int) : Option NaiveDateTime :=
  if inDateRange (t.dn + k) then some ⟨t.dn + k, t.sod, t.nano⟩ else none

/-- chrono checked_add_signed with a millisecond duration: exact addition
on the nanosecond timeline, none when the date leaves the range. -/
def checkedAddMillis (t : NaiveDateTime) (ms : Int) : Option NaiveDateTime :=
  let tns := (t.dn * 86400 + (t.sod : Int)) * 1000000000 + (t.nano : Int)
    + ms * 1000000
  let dn := tns / 86400000000000
  let rem := (tns % 86400000000000).toNat
  if inDateRange dn then
    some ⟨dn, rem / 1000000000, rem % 1000000000⟩
  else none

/-- icq from src/lib.rs: fractional day count (an f64, modelled as an exact
rational), truncated day part guarded against MAX_DAYS, fractional part
scaled to milliseconds, both added to the 1899-12-30 anchor with checked
additions.  Duration::days itself aborts when the day count is below
-MAX_DAYS; no use in the verified claims reaches that case. -/
def icq (days : ℚ) : Option NaiveDateTime :=
  let intdays := ratTrunc days
  if intdays > MAX_DAYS then none
  else
    let milliseconds := ratTrunc ((days - (intdays : ℚ)) * MILLIS_PER_DAY)
    match checkedAddDays (civil 1899 12 30 0 0 0 0) intdays with
    | none => none
    | some t => checkedAddMillis t milliseconds

/-- apfs from src/lib.rs: nanoseconds since the Unix epoch. -/
def apfs (num : Int) : Option NaiveDateTime := epoch2time num 1000000000 0

/-- chrome from src/lib.rs: microseconds since 1601-01-01. -/
def chrome (num : Int) : Option NaiveDateTime :=
  epoch2time num 1000000 (-11644473600)

/-- cocoa from src/lib.rs: seconds since 2001-01-01. -/
def cocoa (num : Int) : Option NaiveDateTime := epoch2time num 1 978307200

/-- java from src/lib.rs: milliseconds since the Unix epoch. -/
def java (num : Int) : Option NaiveDateTime := epoch2time num 1000 0

/-- mozilla from src/lib.rs: microseconds since the Unix epoch. -/
def mozilla (num : Int) : Option NaiveDateTime := epoch2time num 1000000 0

/-- symbian from src/lib.rs: microseconds since the year 0. -/
def symbian (num : Int) : Option NaiveDateTime :=
  epoch2time num 1000000 (-62167219200)

/-- unix from src/lib.rs: seconds since the Unix epoch. -/
def unix (num : Int) : Option NaiveDateTime := epoch2time num 1 0

/-- uuid_v1 from src/lib.rs: hectonanoseconds since 1582-10-15. -/
def uuid_v1 (num : Int) : Option NaiveDateTime :=
  epoch2time num 10000000 (-12219292800)

/-- windows_date from src/lib.rs: hectonanoseconds since 0001-01-01. -/
def windows_date (num : Int) : Option NaiveDateTime :=
  epoch2time num 10000000 (-62135596800)

/-- windows_file from src/lib.rs: hectonanoseconds since 1601-01-01. -/
def windows_file (num : Int) : Option NaiveDateTime :=
  epoch2time num 10000000 (-11644473600)

/-- Day component of the date one day before March 1 of the given year,
computed through the day-number correspondence exactly as ndays_in_month
computes the length of February. -/
def febPred (y : Int) : Nat := (civilFromDays (daysFromCivil y 3 1 - 1)).2.2

/-- The length of February computed by the pred-based algorithm agrees
with the Gregorian leap rule. -/
def PFeb (y : Int) : Prop := febPred y = if isLeap y then 29 else 28

instance : DecidablePred PFeb :=
  fun y => inferInstanceAs (Decidable (febPred y = if isLeap y then 29 else 28))

/- ------------------------------------------------------------------ -/
/- Helper lemmas                                                       -/
/- ------------------------------------------------------------------ -/

/-- The truncating remainder by a positive divisor is greater than the
negated divisor. -/
theorem tmod_neg_lower {x d : Int} (hd : 0 < d) : -d < x.tmod d := by
  rcases le_or_lt 0 x with hx | hx
  · have h := Int.tmod_nonneg d hx
    omega
  · have hflip : x.tmod d = -((-x).tmod d) := by
      rw [Int.tmod_def, Int.tmod_def, Int.neg_tdiv]
      ring
    have h1 : (-x).tmod d < d := Int.tmod_lt_of_pos (-x) hd
    omega

/-- Incrementing the era shifts the year of cfdCore by 400 and keeps the
month and day. -/
theorem cfdCore_shift (e : Int) (w : Nat) :
    cfdCore (e + 1) w
      = ((cfdCore e w).1 + 400, (cfdCore e w).2.1, (cfdCore e w).2.2) := by
  simp only [cfdCore, Prod.mk.injEq, and_true, true_and]
  split <;> split <;> ring

/-- The civil date of a day number shifted by one 400-year cycle has the
year shifted by 400 and the same month and day. -/
theorem civilFromDays_shift (z : Int) :
    civilFromDays (z + 146097)
      = ((civilFromDays z).1 + 400, (civilFromDays z).2.1,
          (civilFromDays z).2.2) := by
  simp only [civilFromDays]
  have he : (z + 146097 + 719468) / 146097 = (z + 719468) / 146097 + 1 := by
    rw [show z + 146097 + 719468 = z + 719468 + 1 * 146097 by ring]
    exact Int.add_mul_ediv_right (z + 719468) 1 (by norm_num)
  rw [he]
  have harg : z + 146097 + 719468 - ((z + 719468) / 146097 + 1) * 146097
      = z + 719468 - (z + 719468) / 146097 * 146097 := by ring
  rw [harg]
  exact cfdCore_shift _ _

/-- The day number of March 1 shifts by one 146097-day cycle when the year
shifts by 400. -/
theorem daysFromCivil_mar_shift (y : Int) :
    daysFromCivil (y + 400) 3 1 = daysFromCivil y 3 1 + 146097 := by
  simp only [daysFromCivil]
  norm_num
  have he : (y + 400) / 400 = y / 400 + 1 := by
    rw [show y + 400 = y + 1 * 400 by ring]
    exact Int.add_mul_ediv_right y 1 (by norm_num)
  rw [he]
  have harg : y + 400 - (y / 400 + 1) * 400 = y - y / 400 * 400 := by ring
  rw [harg]
  ring

/-- febPred is periodic with period 400. -/
theorem febPred_shift (y : Int) : febPred (y + 400) = febPred y := by
  unfold febPred
  rw [daysFromCivil_mar_shift,
    show daysFromCivil y 3 1 + 146097 - 1 = daysFromCivil y 3 1 - 1 + 146097
      by ring,
    civilFromDays_shift]

/-- The leap test is periodic with period 400. -/
theorem isLeap_shift (y : Int) : isLeap (y + 400) = isLeap y := by
  unfold isLeap
  have h4 : (y + 400) % 4 = y % 4 := by omega
  have h100 : (y + 400) % 100 = y % 100 := by omega
  have h400 : (y + 400) % 400 = y % 400 := by omega
  rw [h4, h100, h400]

/-- The February property is periodic with period 400. -/
theorem PFeb_shift (y : Int) : PFeb (y + 400) ↔ PFeb y := by
  unfold PFeb
  rw [febPred_shift, isLeap_shift]

/-- Downward form of the periodicity. -/
theorem PFeb_shift_down (y : Int) : PFeb (y - 400) ↔ PFeb y := by
  have h := PFeb_shift (y - 400)
  rw [show y - 400 + 400 = y by ring] at h
  exact h.symm

set_option maxRecDepth 40000 in
/-- The February property on the fundamental domain, by evaluation. -/
theorem PFeb_base : ∀ n : Nat, n < 400 → PFeb (n : Int) := by decide

/-- The pred-based February length matches the leap rule for every year. -/
theorem PFeb_all (y : Int) : PFeb y := by
  have key : ∀ q : Int, ∀ r : Int, 0 ≤ r → r < 400 → PFeb (400 * q + r) := by
    intro q
    induction q using Int.induction_on with
    | hz =>
      intro r h0 h4
      have hr : ((r.toNat : Int)) = r := Int.toNat_of_nonneg h0
      rw [show (400 : Int) * 0 + r = r by ring, ← hr]
      exact PFeb_base r.toNat (by omega)
    | hp k ih =>
      intro r h0 h4
      rw [show (400 : Int) * ((k : Int) + 1) + r = 400 * (k : Int) + r + 400
        by ring]
      exact (PFeb_shift _).mpr (ih r h0 h4)
    | hn k ih =>
      intro r h0 h4
      rw [show (400 : Int) * (-(k : Int) - 1) + r = 400 * (-(k : Int)) + r - 400
        by ring]
      exact (PFeb_shift_down _).mpr (ih r h0 h4)
  have h0 : 0 ≤ y % 400 := Int.emod_nonneg y (by norm_num)
  have h4 : y % 400 < 400 := Int.emod_lt_of_pos y (by norm_num)
  have h := key (y / 400) (y % 400) h0 h4
  rwa [Int.ediv_add_emod y 400] at h

/- ------------------------------------------------------------------ -/
/- Claim theorems                                                      -/
/- ------------------------------------------------------------------ -/

/-- C2 (amended): epoch2time computes the truncating quotient q = x / d and
remainder r = x mod d, scales r to nanoseconds as r * (1000000000 / d),
and fails exactly when r is negative (the u32 cast of the negative scaled
remainder wraps to at least two billion, which from_timestamp_opt
rejects), when q + s leaves the i64 range, or when the resulting
Unix-seconds value lies outside the representable date range; otherwise it
returns the civil datetime at Unix-seconds q + s with that nanosecond
remainder. -/
theorem epoch2time_cases (x d s : Int) (hd : 0 < d) (hdvd : d ∣ 1000000000) :
    epoch2time x d s =
      if x.tmod d < 0 ∨ ¬ inI64 (x.tdiv d + s)
          ∨ ¬ inDateRange ((x.tdiv d + s) / 86400) then
        none
      else
        some ⟨(x.tdiv d + s) / 86400, ((x.tdiv d + s) % 86400).toNat,
          (x.tmod d * (1000000000 : Int).tdiv d).toNat⟩ := by
  have hK : d * (1000000000 : Int).tdiv d = 1000000000 :=
    Int.mul_tdiv_cancel' hdvd
  have hKpos : 0 < (1000000000 : Int).tdiv d := by
    rcases le_or_lt ((1000000000 : Int).tdiv d) 0 with h | h
    · have h2 : d * (1000000000 : Int).tdiv d ≤ 0 :=
        mul_nonpos_of_nonneg_of_nonpos (le_of_lt hd) h
      rw [hK] at h2
      norm_num at h2
    · exact h
  have hrlt : x.tmod d < d := Int.tmod_lt_of_pos x hd
  have hrgt : -d < x.tmod d := tmod_neg_lower hd
  rcases lt_or_ge (x.tmod d) 0 with hneg | hpos
  · have hub : x.tmod d * (1000000000 : Int).tdiv d
        ≤ -1 * (1000000000 : Int).tdiv d :=
      mul_le_mul_of_nonneg_right (by omega) (le_of_lt hKpos)
    have hlbd : (1 - d) * (1000000000 : Int).tdiv d
        ≤ x.tmod d * (1000000000 : Int).tdiv d :=
      mul_le_mul_of_nonneg_right (by omega) (le_of_lt hKpos)
    have hlbeq : (1 - d) * (1000000000 : Int).tdiv d
        = (1000000000 : Int).tdiv d - 1000000000 := by
      rw [sub_mul, one_mul, hK]
    have hlb : -1000000000 < x.tmod d * (1000000000 : Int).tdiv d := by
      rw [hlbeq] at hlbd
      linarith
    have hwrap : 2000000000 ≤ u32cast (x.tmod d * (1000000000 : Int).tdiv d) := by
      unfold u32cast
      omega
    rw [if_pos (Or.inl hneg)]
    simp only [epoch2time]
    rcases hadd : checked_add_i64 (x.tdiv d) s with _ | t
    · rfl
    · show fromTimestampOpt t (u32cast (x.tmod d * (1000000000 : Int).tdiv d))
        = none
      unfold fromTimestampOpt
      rw [if_neg (fun hc => absurd hc.1 (by omega))]
  · have hub : x.tmod d * (1000000000 : Int).tdiv d
        ≤ (d - 1) * (1000000000 : Int).tdiv d :=
      mul_le_mul_of_nonneg_right (by omega) (le_of_lt hKpos)
    have hubeq : (d - 1) * (1000000000 : Int).tdiv d
        = 1000000000 - (1000000000 : Int).tdiv d := by
      rw [sub_mul, one_mul, hK]
    have hvlt : x.tmod d * (1000000000 : Int).tdiv d < 1000000000 := by
      rw [hubeq] at hub
      linarith
    have hvnn : 0 ≤ x.tmod d * (1000000000 : Int).tdiv d :=
      mul_nonneg hpos (le_of_lt hKpos)
    have hcast : u32cast (x.tmod d * (1000000000 : Int).tdiv d)
        = (x.tmod d * (1000000000 : Int).tdiv d).toNat := by
      unfold u32cast
      omega
    simp only [epoch2time, hcast]
    by_cases hI : inI64 (x.tdiv d + s)
    · have hadd : checked_add_i64 (x.tdiv d) s = some (x.tdiv d + s) := by
        unfold checked_add_i64 inI64 at *
        rw [if_pos hI]
      rw [hadd]
      show fromTimestampOpt (x.tdiv d + s)
          ((x.tmod d * (1000000000 : Int).tdiv d).toNat) = _
      by_cases hR : inDateRange ((x.tdiv d + s) / 86400)
      · rw [if_neg (by push_neg; exact ⟨by omega, hI, hR⟩)]
        unfold fromTimestampOpt
        rw [if_pos ⟨by omega, hR⟩]
      · rw [if_pos (Or.inr (Or.inr hR))]
        unfold fromTimestampOpt
        rw [if_neg (fun hc => hR hc.2)]
    · have hadd : checked_add_i64 (x.tdiv d) s = none := by
        unfold checked_add_i64 inI64 at *
        rw [if_neg hI]
      rw [hadd, if_pos (Or.inr (Or.inl hI))]
      rfl

/-- C2 witness: the characterisation applied at a positive millisecond
count, evaluating to a concrete civil datetime. -/
theorem epoch2time_cases_w :
    epoch2time 123 1000 0 = some (civil 1970 1 1 0 0 0 123000000) :=
  (epoch2time_cases 123 1000 0 (by norm_num) (by norm_num)).trans (by decide)

/-- C2 counterexample: the tick count -1 at divisor 1000 is a negative
tick count not divisible by d for which neither failure condition of the
claim holds (no i64 overflow, Unix-seconds in range), yet the conversion
returns none instead of a civil datetime. -/
theorem epoch2time_claim_refuted :
    epoch2time (-1) 1000 0 = none
    ∧ inI64 ((-1 : Int).tdiv 1000 + 0)
    ∧ inDateRange (((-1 : Int).tdiv 1000 + 0) / 86400) :=
  ⟨by decide, by decide, by decide⟩

/-- C3: evaluation of google_calendar at an input whose synthetic month
count divided by 12 is 2 to the power 32 plus 50; the wrapping as i32 cast
in plus_months turns it into 50, and the conversion returns a wrapped
(incorrect) date instead of signalling failure for this far out-of-range
input. -/
theorem google_calendar_wrapped_date :
    google_calendar (86400 * (32 * (12 * 4294967346)))
      = some (civil 2019 12 31 0 0 0 0) := by decide

/-- C4: plus_months applied to 2009-02-13 23:31:30 with -5 months returns
the datetime unchanged, because the Rust loop 0..months is empty for
negative months; the claim demands an advance by exactly -5 calendar
months. -/
theorem plus_months_negative_unchanged :
    plus_months (civil 2009 2 13 23 31 30 0) (-5)
      = some (civil 2009 2 13 23 31 30 0) := by decide

/-- C5: evaluation of google_calendar at an input whose synthetic month
count divided by 12 is 2 to the power 32 plus 100, more months than an i32
can represent; instead of failing, the conversion wraps the count to 100
and returns an incorrect date in year 2069. -/
theorem google_calendar_month_count_wrap :
    google_calendar (86400 * (32 * (12 * 4294967396)))
      = some (civil 2069 12 31 0 0 0 0) := by decide

/-- C6 (amended): whenever the truncated whole-day part of the fractional
day count exceeds MAX_DAYS, icq fails immediately, before any duration
arithmetic. -/
theorem icq_day_limit_guard (q : ℚ) (h : MAX_DAYS < ratTrunc q) :
    icq q = none := by
  simp only [icq]
  rw [if_pos h]

/-- C6 witness: the guard applied to the day count 123456789012, which
exceeds MAX_DAYS. -/
theorem icq_day_limit_guard_w :
    MAX_DAYS < ratTrunc (mkRat 123456789012 1)
    ∧ icq (mkRat 123456789012 1) = none :=
  ⟨by decide, icq_day_limit_guard _ (by decide)⟩

/-- C6 counterexample: the day count 398570000.980209 truncates to
398570000, which does not exceed MAX_DAYS, so the conversion does not fail
with the value-too-large condition; it still returns none, failing later
at the checked day addition. -/
theorem icq_not_value_too_large :
    ratTrunc (Rat.divInt 398570000980209 1000000) = 398570000
    ∧ ¬ MAX_DAYS < ratTrunc (Rat.divInt 398570000980209 1000000)
    ∧ icq (Rat.divInt 398570000980209 1000000) = none :=
  ⟨by decide, by decide, by decide⟩

/-- C7: to_google_calendar is exactly the mixed-radix encoding of the
civil components with no loop, and the concrete pair from the claim round
trips: google_calendar(1297899090) is 2009-02-13 23:31:30 and
to_google_calendar of that datetime is 1297899090. -/
theorem to_google_calendar_mixed_radix :
    (∀ t : NaiveDateTime, to_google_calendar t =
      (((((year t - 1970) * 12 + ((month t : Int) - 1)) * 32 + (day t : Int))
            * 24 + (hour t : Int)) * 60 + (minute t : Int)) * 60
        + (second t : Int))
    ∧ google_calendar 1297899090 = some (civil 2009 2 13 23 31 30 0)
    ∧ to_google_calendar (civil 2009 2 13 23 31 30 0) = 1297899090 :=
  ⟨fun _ => rfl, by decide, by decide⟩

/-- C8: for every representable year, ndays_in_month gives February 29
days exactly under the Gregorian leap rule and 28 otherwise, and it fails
only when the year of the following month leaves the representable
range. -/
theorem ndays_in_month_february (y : Int) (h1 : -262144 ≤ y)
    (h2 : y ≤ 262143) :
    ndays_in_month y 2 = some (if isLeap y then (29 : Int) else 28)
    ∧ ∀ m : Nat, 1 ≤ m → m ≤ 12 → ndays_in_month y m = none →
        m = 12 ∧ y = 262143 := by
  constructor
  · have hsome : from_ymd_opt y 3 1 = some (daysFromCivil y 3 1) := by
      unfold from_ymd_opt
      rw [if_pos]
      refine ⟨⟨by norm_num, by norm_num⟩, ⟨le_refl 1, ?_⟩, h1, h2⟩
      simp [daysInMonth]
    have hP := PFeb_all y
    unfold PFeb febPred at hP
    show (from_ymd_opt y 3 1).map
        (fun d => ((civilFromDays (d - 1)).2.2 : Int)) = _
    rw [hsome, Option.map_some', hP]
    simp [apply_ite (fun n : Nat => (n : Int))]
  · intro m hm1 hm12 hnone
    by_cases hm : m = 12
    · subst hm
      refine ⟨rfl, ?_⟩
      by_cases hy : y = 262143
      · exact hy
      exfalso
      have hsome : from_ymd_opt (y + 1) 1 1 = some (daysFromCivil (y + 1) 1 1) := by
        unfold from_ymd_opt
        rw [if_pos]
        refine ⟨⟨le_refl 1, by norm_num⟩, ⟨le_refl 1, ?_⟩, by omega, by omega⟩
        simp [daysInMonth]
      have heq : ndays_in_month y 12
          = some ((civilFromDays (daysFromCivil (y + 1) 1 1 - 1)).2.2 : Int) := by
        show (from_ymd_opt (y + 1) 1 1).map
          (fun d => ((civilFromDays (d - 1)).2.2 : Int)) = _
        rw [hsome, Option.map_some']
      rw [heq] at hnone
      exact Option.some_ne_none _ hnone
    · exfalso
      have hd : 1 ≤ daysInMonth y (m + 1) := by
        interval_cases m
        · simp only [daysInMonth]
          split <;> omega
        all_goals first
          | exact absurd rfl hm
          | simp [daysInMonth]
      have hsome : from_ymd_opt y (m + 1) 1 = some (daysFromCivil y (m + 1) 1) := by
        unfold from_ymd_opt
        rw [if_pos ⟨⟨by omega, by omega⟩, ⟨le_refl 1, hd⟩, h1, h2⟩]
      have heq : ndays_in_month y m
          = some ((civilFromDays (daysFromCivil y (m + 1) 1 - 1)).2.2 : Int) := by
        simp only [ndays_in_month, if_neg hm]
        rw [hsome, Option.map_some']
      rw [heq] at hnone
      exact Option.some_ne_none _ hnone

/-- C8 witness: the February lengths of the years 2000, 1900 and 2004. -/
theorem ndays_in_month_february_w :
    ((-262144 : Int) ≤ 2000 ∧ (2000 : Int) ≤ 262143)
    ∧ ndays_in_month 2000 2 = some 29
    ∧ ndays_in_month 1900 2 = some 28
    ∧ ndays_in_month 2004 2 = some 29 := by
  refine ⟨by norm_num, ?_, ?_, ?_⟩
  · exact ((ndays_in_month_february 2000 (by norm_num) (by norm_num)).1).trans
      (by decide)
  · exact ((ndays_in_month_february 1900 (by norm_num) (by norm_num)).1).trans
      (by decide)
  · exact ((ndays_in_month_february 2004 (by norm_num) (by norm_num)).1).trans
      (by decide)

/-- C9: the concrete uniform conversions of the claim, evaluated:
unix(1234567890), unix(-1234567890) and windows_file(0x1cabbaa00ca9000)
give exactly the stated civil datetimes. -/
theorem uniform_concrete_conversions :
    unix 1234567890 = some (civil 2009 2 13 23 31 30 0)
    ∧ unix (-1234567890) = some (civil 1930 11 18 0 28 30 0)
    ∧ windows_file 0x1cabbaa00ca9000
        = some (civil 2010 3 4 14 50 16 559001600) :=
  ⟨by decide, by decide, by decide⟩

/-- C10: the google-calendar pair is not a universal round trip: at input
0 the forward conversion succeeds with the anchor 1969-12-31 00:00:00, but
the backward conversion of that datetime is -86400, not 0. -/
theorem google_calendar_roundtrip_fails_at_zero :
    google_calendar 0 = some (civil 1969 12 31 0 0 0 0)
    ∧ to_google_calendar (civil 1969 12 31 0 0 0 0) = -86400
    ∧ to_google_calendar (civil 1969 12 31 0 0 0 0) ≠ 0 :=
  ⟨by decide, by decide, by decide⟩

end Epochs
